import Mathlib

/- Shallow embedding of src/etl_pipeline.py (the Fetcher / Normalizer /
   Upserter ETL pipeline).  Timestamps are integers counting seconds, so
   timedelta(days=30) is 30 * 86400.  The two wall-clock reads the script
   performs during a transform (pd.Timestamp.now() inside fillna, and
   datetime.now() for fetch_time, in that order) are modelled as two
   explicit parameters fillTime and fetchTime. -/

/-- A Python value as it can appear in a raw API record or a DataFrame cell.
`PyVal.none` is Python `None` (also standing in for pandas `NaT`);
`PyVal.time t` represents a source-supplied date value that
`pd.to_datetime` parses successfully, carrying its parsed timestamp `t`;
`str`, `int` and `bool` are the other value shapes the pipeline handles,
kept as-is (a string or number that is not a parseable date is represented
by `str` / `int`). -/
inductive PyVal where
  | none
  | str (s : String)
  | int (n : Int)
  | bool (b : Bool)
  | time (t : Int)
deriving DecidableEq

/-- Timestamps (seconds). -/
abbrev Timestamp := Int

/-- A raw API record: a Python dict, i.e. a partial map from field names to
values.  `Option.none` means the key is absent; `some PyVal.none` means the
key is present with value `None` (null). -/
abbrev RawRecord := String → Option PyVal

/-- Python `dict.get(key, default)`: the default is used only when the key
is absent, not when it is present with value `None`. -/
def dictGet (m : RawRecord) (k : String) (d : PyVal) : PyVal :=
  (m k).getD d

/-- Python truthiness, as used by the `x or 0` idiom in the source. -/
def pyTruthy : PyVal → Bool
  | PyVal.none => false
  | PyVal.str s => decide (s ≠ "")
  | PyVal.int n => decide (n ≠ 0)
  | PyVal.bool b => b
  | PyVal.time _ => true

/-- Python `v or d`: returns `v` when `v` is truthy, else `d`. -/
def pyOr (v d : PyVal) : PyVal :=
  if pyTruthy v then v else d

/-- Models `pd.to_datetime(v, errors='coerce')`: a parseable date value
(`PyVal.time t`) parses to its timestamp; everything else (absent / None /
NaT / unparseable text) coerces to NaT, modelled as `Option.none`. -/
def toDatetimeCoerce : PyVal → Option Timestamp
  | PyVal.time t => some t
  | _ => Option.none

/-- `timedelta(days=30)` in seconds. -/
def thirtyDays : Int := 30 * 86400

/-- One row of the DataFrame produced by `transform_models_data`
(the Normalizer's output), with the exact columns the source builds,
including the extra `modelname` column. -/
structure ModelRecord where
  modelname : PyVal
  modelId : PyVal
  author : PyVal
  downloads : PyVal
  likes : PyVal
  pipeline_tag : PyVal
  library_name : PyVal
  model_type : PyVal
  license : PyVal
  «private» : PyVal
  last_modified : Timestamp
  is_recent : Bool
  fetch_time : Timestamp
deriving DecidableEq

/-- The `last_modified` column after
`pd.to_datetime(model.get("lastModified", pd.NaT), errors='coerce')`
followed by `.fillna(pd.Timestamp.now())`, where `fillTime` is the value
of that `pd.Timestamp.now()` call. -/
def parsedLastModified (fillTime : Timestamp) (m : RawRecord) : Timestamp :=
  (toDatetimeCoerce (dictGet m "lastModified" PyVal.none)).getD fillTime

/-- The per-record dict comprehension of `transform_models_data`, together
with the column-wise fillna, fetch_time assignment and is_recent
derivation, specialised to a single record.  `fillTime` is the
`pd.Timestamp.now()` read inside `fillna`; `fetchTime` is the
`datetime.now()` read into `fetch_time` immediately afterwards. -/
def transformRow (fillTime fetchTime : Timestamp) (model : RawRecord) : ModelRecord :=
  { modelname := dictGet model "name" (PyVal.str "")
  , modelId := dictGet model "modelId" (PyVal.str "")
  , author := dictGet model "author" (PyVal.str "unknown")
  , downloads := pyOr (dictGet model "downloads" PyVal.none) (PyVal.int 0)
  , likes := pyOr (dictGet model "likes" PyVal.none) (PyVal.int 0)
  , pipeline_tag := dictGet model "pipeline_tag" (PyVal.str "")
  , library_name := dictGet model "library_name" (PyVal.str "")
  , model_type := dictGet model "model_type" (PyVal.str "")
  , license := dictGet model "license" (PyVal.str "unknown")
  , «private» := dictGet model "private" (PyVal.bool false)
  , last_modified := parsedLastModified fillTime model
  , is_recent := decide (parsedLastModified fillTime model ≥ fetchTime - thirtyDays)
  , fetch_time := fetchTime }

/-- `transform_models_data`.  For a nonempty input every per-record dict
carries all thirteen keys, so the DataFrame has every column and the
transform is the per-record map.  For the empty input `pd.DataFrame([])`
has no columns at all, and the column access `df["last_modified"]` in the
fillna line raises a KeyError — modelled as `Except.error`. -/
def transform_models_data (fillTime fetchTime : Timestamp) (models : List RawRecord) :
    Except String (List ModelRecord) :=
  if models.isEmpty then Except.error "KeyError: last_modified"
  else Except.ok (models.map (transformRow fillTime fetchTime))

/-- A stored row of table `huggingface_models`: exactly the twelve schema
columns, with `modelId` held separately as the key.  The source's
`df[[...]].values.tolist()` selects exactly these columns (no
`modelname`). -/
structure StoredRow where
  author : PyVal
  downloads : PyVal
  likes : PyVal
  pipeline_tag : PyVal
  library_name : PyVal
  model_type : PyVal
  license : PyVal
  «private» : PyVal
  last_modified : Timestamp
  is_recent : Bool
  fetch_time : Timestamp
deriving DecidableEq

/-- The non-key columns the INSERT writes for a fresh row (all of them,
taken from the incoming record). -/
def rowOf (r : ModelRecord) : StoredRow :=
  { author := r.author
  , downloads := r.downloads
  , likes := r.likes
  , pipeline_tag := r.pipeline_tag
  , library_name := r.library_name
  , model_type := r.model_type
  , license := r.license
  , «private» := r.«private»
  , last_modified := r.last_modified
  , is_recent := r.is_recent
  , fetch_time := r.fetch_time }

/-- The `ON CONFLICT (modelId) DO UPDATE SET` clause of the source, which
sets downloads, likes, pipeline_tag, library_name, model_type, license,
private, last_modified, is_recent and fetch_time from EXCLUDED — and does
not set author. -/
def updateRow (old : StoredRow) (r : ModelRecord) : StoredRow :=
  { author := old.author
  , downloads := r.downloads
  , likes := r.likes
  , pipeline_tag := r.pipeline_tag
  , library_name := r.library_name
  , model_type := r.model_type
  , license := r.license
  , «private» := r.«private»
  , last_modified := r.last_modified
  , is_recent := r.is_recent
  , fetch_time := r.fetch_time }

/-- Effect of one INSERT ... ON CONFLICT statement on the row stored under
the record's key: insert when absent, conflict-update when present. -/
def upsertStep : Option StoredRow → ModelRecord → Option StoredRow
  | Option.none, r => some (rowOf r)
  | some old, r => some (updateRow old r)

/-- The table, keyed by `modelId` (the PRIMARY KEY constraint means at most
one stored row per key, so the table is a partial map). -/
abbrev Table := PyVal → Option StoredRow

/-- The table with no rows. -/
def emptyTable : Table := fun _ => Option.none

/-- One upsert statement applied to the whole table. -/
def upsertOne (t : Table) (r : ModelRecord) : Table :=
  fun k => if k = r.modelId then upsertStep (t k) r else t k

/-- `execute_batch`: the upsert statement executed once per record, in
list order. -/
def upsertAll (t : Table) (rs : List ModelRecord) : Table :=
  rs.foldl upsertOne t

/-- The steps of `load_to_postgres` that can raise, in program order:
`psycopg2.connect`, the CREATE TABLE IF NOT EXISTS, each row write of
`execute_batch`, `conn.commit()`, `cursor.close()`, `conn.close()`. -/
inductive Step where
  | connect
  | createTable
  | write (i : Nat)
  | commit
  | closeCursor
  | closeConn
deriving DecidableEq

/-- Observable outcome of one `load_to_postgres` call: whether the except
block re-raised, the committed (durable) table state, whether a connection
was acquired, and whether it was closed before returning. -/
structure LoadResult where
  raised : Bool
  table : Table
  connOpened : Bool
  connClosed : Bool

/-- `load_to_postgres`, with failures injected by the oracle `F` (`F s =
true` means step `s` raises).  Execution follows the source's try/except:
the first failing step jumps to the except block, which logs and re-raises
without any further cleanup; writes become durable only at commit;
`cursor.close()` and `conn.close()` run only after a successful commit. -/
def load_to_postgres (F : Step → Bool) (t : Table) (rs : List ModelRecord) : LoadResult :=
  if F Step.connect then ⟨true, t, false, false⟩
  else if F Step.createTable then ⟨true, t, true, false⟩
  else if (List.range rs.length).any (fun i => F (Step.write i)) then ⟨true, t, true, false⟩
  else if F Step.commit then ⟨true, t, true, false⟩
  else if F Step.closeCursor then ⟨true, upsertAll t rs, true, false⟩
  else if F Step.closeConn then ⟨true, upsertAll t rs, true, false⟩
  else ⟨false, upsertAll t rs, true, true⟩

/-- The conflict-resolution result spelled out: the incoming record's
columns with the author replaced by `a`. -/
def mkFinal (a : PyVal) (r : ModelRecord) : StoredRow :=
  { rowOf r with author := a }

/-- The author column the upsert of a fixed key ends up with: the stored
row's author when one exists, otherwise the first inserted record's. -/
def seedAuthor : Option StoredRow → List ModelRecord → PyVal
  | some z, _ => z.author
  | Option.none, [] => PyVal.none
  | Option.none, r :: _ => r.author

/-- `r.modelId` swapped out, leaving every other column alone. -/
def setModelname (x : PyVal) (r : ModelRecord) : ModelRecord :=
  { r with modelname := x }

/-- A raw record with no fields at all. -/
def rawEmpty : RawRecord := fun _ => Option.none

/-- A raw record whose only field is `author`, present with value `None`. -/
def rawNullAuthor : RawRecord :=
  fun k => if k = "author" then some PyVal.none else Option.none

/-- A raw record with no `modelId` field and author `"a"`. -/
def rawNoIdA : RawRecord :=
  fun k => if k = "author" then some (PyVal.str "a") else Option.none

/-- A raw record with no `modelId` field and author `"b"`. -/
def rawNoIdB : RawRecord :=
  fun k => if k = "author" then some (PyVal.str "b") else Option.none

/-- A concrete normalized record keyed `"x"` with author `"a"`. -/
def recA : ModelRecord :=
  ⟨PyVal.str "", PyVal.str "x", PyVal.str "a", PyVal.int 1, PyVal.int 1,
   PyVal.str "", PyVal.str "", PyVal.str "", PyVal.str "mit",
   PyVal.bool false, 0, true, 0⟩

/-- A concrete normalized record keyed `"x"` with author `"b"` and fresh
values in the remaining columns. -/
def recB : ModelRecord :=
  ⟨PyVal.str "", PyVal.str "x", PyVal.str "b", PyVal.int 2, PyVal.int 3,
   PyVal.str "t", PyVal.str "l", PyVal.str "m", PyVal.str "apache",
   PyVal.bool true, 5, false, 7⟩

/-- Failure oracle: only `conn.commit()` raises. -/
def failCommit : Step → Bool := fun s => decide (s = Step.commit)

/-- Failure oracle: only the first row write raises. -/
def failWrite0 : Step → Bool := fun s => decide (s = Step.write 0)

/-- A raw record whose `lastModified` parses to exactly thirty days before
a fetch time of `0`. -/
def rawBoundary30 : RawRecord :=
  fun k => if k = "lastModified" then some (PyVal.time (-2592000)) else Option.none

/-- A raw record whose `lastModified` parses to exactly thirty-one days
before a fetch time of `0`. -/
def rawBoundary31 : RawRecord :=
  fun k => if k = "lastModified" then some (PyVal.time (-2678400)) else Option.none

theorem upsertAll_apply (rs : List ModelRecord) : ∀ (t : Table) (k : PyVal),
    upsertAll t rs k
      = (rs.filter (fun r => decide (r.modelId = k))).foldl upsertStep (t k) := by
  induction rs with
  | nil => intro t k; rfl
  | cons r rs ih =>
    intro t k
    show upsertAll (upsertOne t r) rs k = _
    rw [ih]
    by_cases h : r.modelId = k
    · simp [upsertOne, h, List.filter_cons]
    · have h' : ¬(k = r.modelId) := fun hh => h hh.symm
      simp [upsertOne, h, h', List.filter_cons]

theorem foldl_upsertStep_concat : ∀ (l : List ModelRecord) (o : Option StoredRow) (r : ModelRecord),
    List.foldl upsertStep o (l ++ [r]) = some (mkFinal (seedAuthor o (l ++ [r])) r) := by
  intro l
  induction l with
  | nil =>
    intro o r
    cases o with
    | none => rfl
    | some z => rfl
  | cons a l ih =>
    intro o r
    show List.foldl upsertStep (upsertStep o a) (l ++ [r]) = _
    rw [ih]
    cases o with
    | none => rfl
    | some z => rfl

theorem foldl_upsertStep_idem (o : Option StoredRow) (l : List ModelRecord) :
    List.foldl upsertStep (List.foldl upsertStep o l) l = List.foldl upsertStep o l := by
  rcases List.eq_nil_or_concat l with rfl | ⟨l', r, rfl⟩
  · rfl
  · simp only [List.concat_eq_append, foldl_upsertStep_concat]
    rfl

theorem foldl_upsertStep_isSome (o : Option StoredRow) (l : List ModelRecord) :
    (List.foldl upsertStep o l).isSome = (o.isSome || !l.isEmpty) := by
  rcases List.eq_nil_or_concat l with rfl | ⟨l', r, rfl⟩
  · simp
  · rw [List.concat_eq_append, foldl_upsertStep_concat]
    simp

theorem upsertStep_setModelname (o : Option StoredRow) (x : PyVal) (r : ModelRecord) :
    upsertStep o (setModelname x r) = upsertStep o r := by
  cases o <;> rfl

theorem setModelname_modelId (x : PyVal) (r : ModelRecord) :
    (setModelname x r).modelId = r.modelId := rfl

theorem upsertOne_setModelname (t : Table) (x : PyVal) (r : ModelRecord) :
    upsertOne t (setModelname x r) = upsertOne t r := by
  funext k
  simp only [upsertOne, upsertStep_setModelname, setModelname_modelId]

theorem upsertAll_setModelname (rs : List ModelRecord) : ∀ (t : Table) (x : PyVal),
    upsertAll t (rs.map (setModelname x)) = upsertAll t rs := by
  induction rs with
  | nil => intro t x; rfl
  | cons r rs ih =>
    intro t x
    show upsertAll (upsertOne t (setModelname x r)) (rs.map (setModelname x))
        = upsertAll (upsertOne t r) rs
    rw [upsertOne_setModelname, ih]

theorem foldl_upsertStep_head_last (s : List ModelRecord) (r₀ rl : ModelRecord)
    (hhead : s.head? = some r₀) (hlast : s.getLast? = some rl) :
    List.foldl upsertStep Option.none s = some (mkFinal r₀.author rl) := by
  rcases List.eq_nil_or_concat s with rfl | ⟨l', r, rfl⟩
  · simp at hhead
  · rw [List.concat_eq_append] at hhead hlast ⊢
    rw [foldl_upsertStep_concat]
    rw [List.getLast?_concat] at hlast
    have hr : r = rl := by injection hlast
    subst hr
    cases l' with
    | nil =>
      have h0 : r = r₀ := by
        simpa using hhead
      subst h0
      rfl
    | cons a l'' =>
      have h0 : a = r₀ := by
        simpa using hhead
      subst h0
      rfl

theorem transformRow_is_recent (fillTime fetchTime : Timestamp) (m : RawRecord) :
    (transformRow fillTime fetchTime m).is_recent
      = decide (parsedLastModified fillTime m ≥ fetchTime - thirtyDays) := rfl

theorem transformRow_last_modified (fillTime fetchTime : Timestamp) (m : RawRecord) :
    (transformRow fillTime fetchTime m).last_modified = parsedLastModified fillTime m := rfl

/-- C2, claim as stated, fails: when the raw record has no parseable
`lastModified`, the stored `last_modified` is the timestamp read by the
`fillna(pd.Timestamp.now())` call, which happens strictly before the
`datetime.now()` read into `fetch_time`; with fill time `0` and fetch time
`1` the two differ. -/
theorem C2_counterexample :
    toDatetimeCoerce (dictGet rawEmpty "lastModified" PyVal.none) = Option.none ∧
    (transformRow 0 1 rawEmpty).last_modified ≠ (transformRow 0 1 rawEmpty).fetch_time := by
  decide

/-- C2 (amended): for a record whose `lastModified` is absent or
unparseable, `last_modified` equals the fill timestamp (the
`pd.Timestamp.now()` read during `fillna`, taken just before `fetch_time`),
and `is_recent` is true whenever `fetch_time` minus the fill timestamp is
at most thirty days — which always holds within one run. -/
theorem C2_last_modified_default (fillTime fetchTime : Timestamp) (m : RawRecord)
    (h : toDatetimeCoerce (dictGet m "lastModified" PyVal.none) = Option.none) :
    (transformRow fillTime fetchTime m).last_modified = fillTime ∧
    (fetchTime - fillTime ≤ thirtyDays → (transformRow fillTime fetchTime m).is_recent = true) := by
  have hlm : parsedLastModified fillTime m = fillTime := by
    simp [parsedLastModified, h]
  constructor
  · simpa [transformRow] using hlm
  · intro hgap
    rw [transformRow_is_recent, hlm, decide_eq_true_eq, ge_iff_le]
    simp only [thirtyDays] at hgap ⊢
    linarith

theorem C2_witness :
    (transformRow 4 5 rawEmpty).last_modified = 4 ∧
    (transformRow 4 5 rawEmpty).is_recent = true := by
  have h := C2_last_modified_default 4 5 rawEmpty (by decide)
  exact ⟨h.1, h.2 (by decide)⟩

/-- C3, claim as stated, fails on the empty sequence: `pd.DataFrame([])`
has no columns, so the fillna line's access to the `last_modified` column
raises a KeyError instead of returning an empty row sequence. -/
theorem C3_counterexample :
    transform_models_data 0 0 ([] : List RawRecord)
      = Except.error "KeyError: last_modified" := rfl

/-- C3 (amended): for every nonempty sequence of record-shaped inputs the
Normalizer returns without raising and produces exactly one output row per
input record, in the same order as the input; on the empty sequence it
raises (the KeyError from the missing `last_modified` column) rather than
returning an empty output. -/
theorem C3_transform_total (fillTime fetchTime : Timestamp) (models : List RawRecord)
    (hne : models ≠ []) :
    transform_models_data fillTime fetchTime models
      = Except.ok (models.map (transformRow fillTime fetchTime)) ∧
    (models.map (transformRow fillTime fetchTime)).length = models.length ∧
    ∀ i : Nat, (models.map (transformRow fillTime fetchTime))[i]?
        = (models[i]?).map (transformRow fillTime fetchTime) := by
  have hff : models.isEmpty = false := List.isEmpty_eq_false.mpr hne
  refine ⟨by simp [transform_models_data, hff], by simp, fun i => ?_⟩
  simp

theorem C3_witness :
    transform_models_data 0 0 [rawEmpty]
      = Except.ok ([rawEmpty].map (transformRow 0 0)) ∧
    ([rawEmpty].map (transformRow 0 0)).length = 1 := by
  have h := C3_transform_total 0 0 [rawEmpty] (List.cons_ne_nil _ _)
  exact ⟨h.1, h.2.1⟩

/-- C5, claim as stated, fails: a record whose `author` field is present
with value `None` keeps that null value — `dict.get(key, default)` applies
the default only when the key is absent, so the claimed replacement by
`"unknown"` does not happen. -/
theorem C5_counterexample :
    rawNullAuthor "author" = some PyVal.none ∧
    (transformRow 0 0 rawNullAuthor).author = PyVal.none ∧
    (transformRow 0 0 rawNullAuthor).author ≠ PyVal.str "unknown" := by
  decide

/-- C5 (amended): for the five string fields, an absent key is replaced by
the specified default (`"unknown"` for author and license, `""` for the
others), and any present value — including a null — is used as-is with no
trimming or case normalization. -/
theorem C5_string_field_defaults (fillTime fetchTime : Timestamp) (m : RawRecord) :
    ((m "author" = Option.none → (transformRow fillTime fetchTime m).author = PyVal.str "unknown") ∧
      ∀ v, m "author" = some v → (transformRow fillTime fetchTime m).author = v) ∧
    ((m "pipeline_tag" = Option.none → (transformRow fillTime fetchTime m).pipeline_tag = PyVal.str "") ∧
      ∀ v, m "pipeline_tag" = some v → (transformRow fillTime fetchTime m).pipeline_tag = v) ∧
    ((m "library_name" = Option.none → (transformRow fillTime fetchTime m).library_name = PyVal.str "") ∧
      ∀ v, m "library_name" = some v → (transformRow fillTime fetchTime m).library_name = v) ∧
    ((m "model_type" = Option.none → (transformRow fillTime fetchTime m).model_type = PyVal.str "") ∧
      ∀ v, m "model_type" = some v → (transformRow fillTime fetchTime m).model_type = v) ∧
    ((m "license" = Option.none → (transformRow fillTime fetchTime m).license = PyVal.str "unknown") ∧
      ∀ v, m "license" = some v → (transformRow fillTime fetchTime m).license = v) := by
  refine ⟨⟨?_, ?_⟩, ⟨?_, ?_⟩, ⟨?_, ?_⟩, ⟨?_, ?_⟩, ⟨?_, ?_⟩⟩
  all_goals first
    | (intro h; simp [transformRow, dictGet, h])
    | (intro v h; simp [transformRow, dictGet, h])

theorem C5_witness :
    (transformRow 0 0 rawNullAuthor).author = PyVal.none ∧
    (transformRow 0 0 rawNullAuthor).license = PyVal.str "unknown" := by
  have h := C5_string_field_defaults 0 0 rawNullAuthor
  exact ⟨h.1.2 PyVal.none (by decide), h.2.2.2.2.1 (by decide)⟩

/-- C6 (confirmed): `is_recent` is true exactly when `last_modified` is at
least `fetch_time` minus thirty days; the boundary is inclusive — a record
whose `lastModified` parses to exactly thirty days before `fetch_time` is
recent, one at thirty-one days before is not. -/
theorem C6_is_recent_boundary (fillTime fetchTime : Timestamp) (m : RawRecord) :
    ((transformRow fillTime fetchTime m).is_recent = true ↔
      (transformRow fillTime fetchTime m).last_modified ≥
        (transformRow fillTime fetchTime m).fetch_time - thirtyDays) ∧
    (dictGet m "lastModified" PyVal.none = PyVal.time (fetchTime - thirtyDays) →
      (transformRow fillTime fetchTime m).is_recent = true) ∧
    (dictGet m "lastModified" PyVal.none = PyVal.time (fetchTime - 31 * 86400) →
      (transformRow fillTime fetchTime m).is_recent = false) := by
  refine ⟨by simp [transformRow], ?_, ?_⟩
  · intro h
    simp [transformRow, parsedLastModified, h, toDatetimeCoerce]
  · intro h
    rw [transformRow_is_recent]
    have hp : parsedLastModified fillTime m = fetchTime - 31 * 86400 := by
      simp [parsedLastModified, h, toDatetimeCoerce]
    rw [hp, decide_eq_false_iff_not, ge_iff_le, not_le]
    simp only [thirtyDays]
    linarith

theorem C6_witness :
    (transformRow 0 0 rawBoundary30).is_recent = true ∧
    (transformRow 0 0 rawBoundary31).is_recent = false := by
  exact ⟨(C6_is_recent_boundary 0 0 rawBoundary30).2.1 (by decide),
         (C6_is_recent_boundary 0 0 rawBoundary31).2.2 (by decide)⟩

/-- C1, claim as stated, fails: the `ON CONFLICT ... DO UPDATE SET` clause
of the source lists every non-key column except `author`, so upserting a
second record with the same key does not produce that record's full row —
the stored author stays `"a"` instead of becoming `"b"`. -/
theorem C1_counterexample :
    upsertOne emptyTable recA (PyVal.str "x") = some (rowOf recA) ∧
    upsertOne (upsertOne emptyTable recA) recB (PyVal.str "x") ≠ some (rowOf recB) ∧
    (upsertOne (upsertOne emptyTable recA) recB (PyVal.str "x")).map StoredRow.author
      = some (PyVal.str "a") := by
  decide

/-- C1 (amended): when the incoming record's `model_id` already exists,
every non-key column except `author` (downloads, likes, pipeline_tag,
library_name, model_type, license, private, last_modified, is_recent,
fetch_time) is overwritten with the incoming record's values; `author`
keeps the previously stored value. -/
theorem C1_conflict_update (t : Table) (r : ModelRecord) (old : StoredRow)
    (h : t r.modelId = some old) :
    upsertOne t r r.modelId
      = some { author := old.author, downloads := r.downloads, likes := r.likes,
               pipeline_tag := r.pipeline_tag, library_name := r.library_name,
               model_type := r.model_type, license := r.license, «private» := r.«private»,
               last_modified := r.last_modified, is_recent := r.is_recent,
               fetch_time := r.fetch_time } := by
  simp [upsertOne, h, upsertStep, updateRow]

theorem C1_witness :
    upsertOne (upsertOne emptyTable recA) recB recB.modelId
      = some { author := PyVal.str "a", downloads := PyVal.int 2, likes := PyVal.int 3,
               pipeline_tag := PyVal.str "t", library_name := PyVal.str "l",
               model_type := PyVal.str "m", license := PyVal.str "apache",
               «private» := PyVal.bool true, last_modified := 5, is_recent := false,
               fetch_time := 7 } := by
  exact C1_conflict_update (upsertOne emptyTable recA) recB (rowOf recA) (by decide)

/-- C4, claim as stated, fails: the source's except block only logs and
re-raises — there is no finally clause — so when `conn.commit()` raises,
the call exits with the connection still open. -/
theorem C4_counterexample :
    (load_to_postgres failCommit emptyTable []).connOpened = true ∧
    (load_to_postgres failCommit emptyTable []).raised = true ∧
    (load_to_postgres failCommit emptyTable []).connClosed = false := by
  decide

/-- C4 (amended): the connection is closed exactly on the fully successful
exit path; on any failing path the error is re-raised without closing the
connection. -/
theorem C4_conn_closed_iff_success (F : Step → Bool) (t : Table) (rs : List ModelRecord) :
    (load_to_postgres F t rs).connClosed = !(load_to_postgres F t rs).raised := by
  unfold load_to_postgres
  split_ifs <;> rfl

/-- C7 (confirmed): writes reach the durable table only through the single
commit after every row of the batch has been submitted, so the table ends
either unchanged or holding the whole batch; and any failure during
connection, schema-ensure or a row write re-raises to the caller and
leaves the table exactly as it was before the call. -/
theorem C7_atomic_commit (F : Step → Bool) (t : Table) (rs : List ModelRecord) :
    ((load_to_postgres F t rs).table = t ∨
      (load_to_postgres F t rs).table = upsertAll t rs) ∧
    ((F Step.connect = true ∨ F Step.createTable = true ∨
        ∃ i, i < rs.length ∧ F (Step.write i) = true) →
      (load_to_postgres F t rs).raised = true ∧ (load_to_postgres F t rs).table = t) := by
  constructor
  · unfold load_to_postgres
    split_ifs <;> simp
  · intro h
    unfold load_to_postgres
    by_cases h1 : F Step.connect = true
    · simp [h1]
    · by_cases h2 : F Step.createTable = true
      · simp [h1, h2]
      · have h3 : (List.range rs.length).any (fun i => F (Step.write i)) = true := by
          rcases h with hf | hf | ⟨i, hi, hF⟩
          · exact absurd hf h1
          · exact absurd hf h2
          · exact List.any_eq_true.mpr ⟨i, List.mem_range.mpr hi, hF⟩
        simp [h1, h2, h3]

theorem C7_witness :
    (load_to_postgres failWrite0 emptyTable [recA]).raised = true ∧
    (load_to_postgres failWrite0 emptyTable [recA]).table = emptyTable := by
  exact (C7_atomic_commit failWrite0 emptyTable [recA]).2
    (Or.inr (Or.inr ⟨0, by decide, by decide⟩))

/-- C8 (confirmed): upserting the same record sequence twice leaves the
table holding a row exactly for each `model_id` occurring in the sequence,
and the state after the second run equals the state after a single run of
that sequence — the second run's writes fully determine the result. -/
theorem C8_upsert_idempotent (s : List ModelRecord) :
    (∀ k : PyVal, (upsertAll (upsertAll emptyTable s) s k).isSome = true ↔
        k ∈ s.map (fun r => r.modelId)) ∧
    upsertAll (upsertAll emptyTable s) s = upsertAll emptyTable s := by
  have hpt : ∀ k, upsertAll (upsertAll emptyTable s) s k = upsertAll emptyTable s k := by
    intro k
    simp only [upsertAll_apply]
    exact foldl_upsertStep_idem _ _
  have hkeys : ∀ k, (upsertAll emptyTable s k).isSome = true ↔
      k ∈ s.map (fun r => r.modelId) := by
    intro k
    rw [upsertAll_apply, foldl_upsertStep_isSome]
    have hempt : (emptyTable k).isSome = false := rfl
    rw [hempt, Bool.false_or, Bool.not_eq_true', List.isEmpty_eq_false]
    constructor
    · intro hne
      rcases List.exists_mem_of_ne_nil _ hne with ⟨r, hr⟩
      have hmem := List.mem_filter.mp hr
      exact List.mem_map.mpr ⟨r, hmem.1, of_decide_eq_true hmem.2⟩
    · intro hk
      rcases List.mem_map.mp hk with ⟨r, hr, hid⟩
      intro hnil
      have hmem : r ∈ s.filter (fun r => decide (r.modelId = k)) :=
        List.mem_filter.mpr ⟨hr, decide_eq_true hid⟩
      rw [hnil] at hmem
      simp at hmem
  exact ⟨fun k => by rw [hpt k]; exact hkeys k, funext hpt⟩

theorem C8_witness :
    upsertAll (upsertAll emptyTable [recA]) [recA] = upsertAll emptyTable [recA] ∧
    (upsertAll (upsertAll emptyTable [recA]) [recA] (PyVal.str "x")).isSome = true := by
  exact ⟨(C8_upsert_idempotent [recA]).2,
         ((C8_upsert_idempotent [recA]).1 (PyVal.str "x")).mpr (by decide)⟩

/-- C9 (confirmed): the Normalizer derives the extra `modelname` column
from the raw record's `name` field, but the Upserter's behaviour — and so
the persisted table, which holds exactly the twelve schema columns of the
`StoredRow` shape — is entirely independent of that column's value. -/
theorem C9_modelname_dropped (fillTime fetchTime : Timestamp) (m : RawRecord)
    (F : Step → Bool) (t : Table) (rs : List ModelRecord) (x : PyVal) :
    (transformRow fillTime fetchTime m).modelname = dictGet m "name" (PyVal.str "") ∧
    load_to_postgres F t (rs.map (setModelname x)) = load_to_postgres F t rs := by
  constructor
  · rfl
  · unfold load_to_postgres
    rw [List.length_map, upsertAll_setModelname]

/-- C10, claim as stated, fails in its final identification: two raw
records without a `modelId` both normalize to key `""` and collapse to a
single stored row, but that row is not "the last one written" — its
`author` column comes from the first record (the conflict update never
sets author), so with authors `"a"` then `"b"` the stored row differs from
the last record's row. -/
theorem C10_counterexample :
    (transformRow 0 0 rawNoIdA).modelId = PyVal.str "" ∧
    (transformRow 0 0 rawNoIdB).modelId = PyVal.str "" ∧
    upsertAll emptyTable [transformRow 0 0 rawNoIdA, transformRow 0 0 rawNoIdB] (PyVal.str "")
      ≠ some (rowOf (transformRow 0 0 rawNoIdB)) ∧
    (upsertAll emptyTable [transformRow 0 0 rawNoIdA, transformRow 0 0 rawNoIdB]
        (PyVal.str "")).map StoredRow.author = some (PyVal.str "a") := by
  decide

/-- C10 (amended): a RawRecord with no `modelId` field is not rejected and
gets `model_id = ""`; all such records in a batch share that primary key,
and after upserting into an empty table exactly one row persists for all
of them, carrying the last record's values in every non-key column except
`author`, which keeps the first record's value. -/
theorem C10_empty_key_collapse (fillTime fetchTime : Timestamp) (m : RawRecord)
    (s : List ModelRecord) (r₀ rl : ModelRecord)
    (hm : m "modelId" = Option.none)
    (hall : ∀ r ∈ s, r.modelId = PyVal.str "")
    (hhead : s.head? = some r₀) (hlast : s.getLast? = some rl) :
    (transformRow fillTime fetchTime m).modelId = PyVal.str "" ∧
    (∀ k, k ≠ PyVal.str "" → upsertAll emptyTable s k = Option.none) ∧
    upsertAll emptyTable s (PyVal.str "") = some (mkFinal r₀.author rl) := by
  refine ⟨by simp [transformRow, dictGet, hm], ?_, ?_⟩
  · intro k hk
    rw [upsertAll_apply]
    have hnil : s.filter (fun r => decide (r.modelId = k)) = [] := by
      rw [List.filter_eq_nil_iff]
      intro a ha
      rw [hall a ha]
      simpa using fun hh => hk hh.symm
    rw [hnil]
    rfl
  · have hself : s.filter (fun r => decide (r.modelId = PyVal.str "")) = s := by
      rw [List.filter_eq_self]
      intro a ha
      rw [hall a ha]
      simp
    rw [upsertAll_apply, hself]
    exact foldl_upsertStep_head_last s r₀ rl hhead hlast

theorem C10_witness :
    (transformRow 0 0 rawNoIdA).modelId = PyVal.str "" ∧
    upsertAll emptyTable [transformRow 0 0 rawNoIdA, transformRow 0 0 rawNoIdB] PyVal.none
      = Option.none ∧
    upsertAll emptyTable [transformRow 0 0 rawNoIdA, transformRow 0 0 rawNoIdB] (PyVal.str "")
      = some (mkFinal (transformRow 0 0 rawNoIdA).author (transformRow 0 0 rawNoIdB)) := by
  have h := C10_empty_key_collapse 0 0 rawNoIdA
    [transformRow 0 0 rawNoIdA, transformRow 0 0 rawNoIdB]
    (transformRow 0 0 rawNoIdA) (transformRow 0 0 rawNoIdB)
    (by decide) (by decide) (by decide) (by decide)
  exact ⟨h.1, h.2.1 PyVal.none (by decide), h.2.2⟩
